import Mathlib

/-!
# Verification of the FormVueLatte lookup plugin (`src/index.js`)

A shallow embedding of the schema-transformation engine: a schema is a list of
rows, a row a list of elements, and an element a JavaScript object modelled as
an association list from property names to values (keys unique in any object
the host language can build).  The transforms `replacePropInElement`,
`mapProperties`, `mapPropertiesWithUserFunction`, `mapComps` and
`mapElementsInSchema` are translated line by line from the source.

JavaScript-specific behaviour kept by the embedding:
* property lookup `el[k]` yields `undefined` when the key is absent
  (`getPropD` with default `Value.undef`);
* object keys are strings: a non-string value used as a key is coerced with
  `String(·)` (`valueKey`, `dirKey`);
* assignment `obj[k] = v` overwrites an existing slot in place, otherwise
  appends the key at the end (`setProp`); `delete obj[k]` removes the slot
  (`deleteProp`);
* the falsy check `!x` on a directive-function result (`dirFalsy`) and on a
  component-table lookup (`strFalsy`);
* `mapProperties` declares `let schemaCopy` without an initializer and each
  `for...in` iteration assigns `schemaCopy = mapElementsInSchema(schema, ...)`
  over the *original* `schema`; the embedding returns `Option Schema`, with
  `none` standing for the `undefined` that the zero-iteration loop leaves in
  `schemaCopy`.
-/

/-- A JavaScript value stored in a schema element. -/
inductive Value where
  | str (s : String)
  | bool (b : Bool)
  | num (n : Int)
  | undef
deriving DecidableEq, Repr

/-- An element: a JS object, property names to values, keys in insertion
order. -/
abbrev Element := List (String × Value)

/-- A row of elements, and a schema as a list of rows
(`schema.map(row => row.map(...))`). -/
abbrev Schema := List (List Element)

/-- Well-formedness of a JS object: no duplicate keys. -/
def ElementWF (el : Element) : Prop := (el.map Prod.fst).Nodup

instance (el : Element) : Decidable (ElementWF el) := by
  unfold ElementWF; infer_instance

/-- Property lookup, first matching key (`el[k]`, absent keys handled by
`getPropD`). -/
def getProp : Element → String → Option Value
  | [], _ => none
  | p :: ps, k => if p.1 = k then some p.2 else getProp ps k

/-- `el[k]` with JS semantics: `undefined` when the key is absent. -/
def getPropD (el : Element) (k : String) : Value :=
  (getProp el k).getD Value.undef

/-- The JS `k in el` test. -/
def hasProp (el : Element) (k : String) : Bool :=
  (getProp el k).isSome

/-- `delete el[k]`: remove the slot holding key `k`. -/
def deleteProp : Element → String → Element
  | [], _ => []
  | p :: ps, k => if p.1 = k then ps else p :: deleteProp ps k

/-- `el[k] = v`: overwrite the existing slot in place, otherwise append the
new key at the end (JS object insertion order). -/
def setProp : Element → String → Value → Element
  | [], k, v => [(k, v)]
  | p :: ps, k, v => if p.1 = k then (k, v) :: ps else p :: setProp ps k v

/-- `String(v)`: the string a value is coerced to when used as an object
key. -/
def valueKey : Value → String
  | .str s => s
  | .bool b => if b then "true" else "false"
  | .num n => toString n
  | .undef => "undefined"

/-- The result of evaluating a replacement directive: in the source this is
the value of `propReplacement`, a string, boolean, number or `undefined`. -/
inductive DirResult where
  | str (s : String)
  | bool (b : Bool)
  | num (n : Int)
  | undef
deriving DecidableEq, Repr

/-- JS falsiness of a directive value (`!propReplacement`). -/
def dirFalsy : DirResult → Bool
  | .str s => s = ""
  | .bool b => !b
  | .num n => n = 0
  | .undef => true

/-- `String(·)` coercion of a directive value used as a property key
(`elementCopy[propReplacement] = originalValue`). -/
def dirKey : DirResult → String
  | .str s => s
  | .bool b => if b then "true" else "false"
  | .num n => toString n
  | .undef => "undefined"

/-- A replacement directive (`mapProps[prop]`): a plain value, or a function
of the element that computes one. -/
inductive Directive where
  | val (v : DirResult)
  | fn (f : Element → DirResult)

/-- The tail of `replacePropInElement` after `propReplacement` is settled:
the missing-property check, the copy with `delete elementCopy[prop]`, the
literal-`false` deletion branch, and the reassignment
`elementCopy[propReplacement] = originalValue`.  The `console.warn`
diagnostic of the missing-property branch is a side effect with no bearing
on the returned element and is not modelled. -/
def replacePropCore (el : Element) (prop : String) (propReplacement : DirResult) : Element :=
  if hasProp el prop then
    let originalValue := getPropD el prop
    let elementCopy := deleteProp el prop
    if propReplacement = DirResult.bool false then
      elementCopy
    else
      setProp elementCopy (dirKey propReplacement) originalValue
  else
    el

/-- `replacePropInElement(el, prop, replacement)`: when `replacement` is a
function it is invoked on the element, and a falsy result returns the
element as is; otherwise control falls through to `replacePropCore`. -/
def replacePropInElement (el : Element) (prop : String) (replacement : Directive) : Element :=
  match replacement with
  | .fn f =>
    let propReplacement := f el
    if dirFalsy propReplacement then el
    else replacePropCore el prop propReplacement
  | .val propReplacement => replacePropCore el prop propReplacement

/-- `mapElementsInSchema(schema, fn) = schema.map(row => row.map(el => fn(el)))`. -/
def mapElementsInSchema (schema : Schema) (fn : Element → Element) : Schema :=
  schema.map fun row => row.map fun el => fn el

/-- Lookup in a component-mapping table (a JS object from source tag to
target tag): `mapComponents[k]`, `undefined` (`none`) when absent. -/
def lookupStr : List (String × String) → String → Option String
  | [], _ => none
  | p :: ps, k => if p.1 = k then some p.2 else lookupStr ps k

/-- The per-element transform of `mapComps`: look up `el.component` in the
table; a falsy `newKey` (absent entry, or an empty-string target) returns a
structural copy of the element, otherwise the copy gets `component` set to
the mapped tag. -/
def mapCompEl (mapComponents : List (String × String)) (el : Element) : Element :=
  match lookupStr mapComponents (valueKey (getPropD el "component")) with
  | none => el
  | some s => if s = "" then el else setProp el "component" (Value.str s)

/-- `mapComps(schema, mapComponents)`. -/
def mapComps (schema : Schema) (mapComponents : List (String × String)) : Schema :=
  mapElementsInSchema schema (mapCompEl mapComponents)

/-- The `mapProps` configuration value as `mapProperties` receives it:
`null`, a value that is neither an object nor a function (`other`), a static
key-directive object (`obj`, `for...in` order = declaration order), or a
user function (`fn`). -/
inductive PropSpec where
  | null
  | other
  | obj (table : List (String × Directive))
  | fn (f : Element → List (String × Directive))

/-- `mapPropsForElement` inside `mapPropertiesWithUserFunction`: call the
user function once on the element, then thread the element through
`replacePropInElement` for each entry of the returned mapping. -/
def mapPropsForElement (el : Element) (f : Element → List (String × Directive)) : Element :=
  (f el).foldl (fun acc p => replacePropInElement acc p.1 p.2) el

/-- `mapPropertiesWithUserFunction(schema, fn)`. -/
def mapPropertiesWithUserFunction (schema : Schema) (f : Element → List (String × Directive)) :
    Schema :=
  mapElementsInSchema schema fun el => mapPropsForElement el f

/-- `mapProperties(schema, mapProps)`.  `null` and non-object non-function
specs return the schema unchanged.  For a static object the source declares
`let schemaCopy` with no initializer and assigns
`schemaCopy = mapElementsInSchema(schema, ...)` on every `for...in`
iteration — always walking the original `schema` — and returns `schemaCopy`,
which is `undefined` (`none`) when the object has no keys. -/
def mapProperties (schema : Schema) (mapProps : PropSpec) : Option Schema :=
  match mapProps with
  | .null => some schema
  | .other => some schema
  | .fn f => some (mapPropertiesWithUserFunction schema f)
  | .obj table =>
    table.foldl
      (fun _ p => some (mapElementsInSchema schema fun el => replacePropInElement el p.1 p.2))
      none

/-- The body of the `watchEffect` in `LookupPlugin`:
`mapComps(mapProperties(schema, mapProps), mapComponents)`.  When
`mapProperties` leaves `undefined`, `mapComps` would throw on
`schema.map`; the embedding propagates `none`. -/
def lookupPluginTransform (schema : Schema) (mapProps : PropSpec)
    (mapComponents : List (String × String)) : Option Schema :=
  (mapProperties schema mapProps).map fun s => mapComps s mapComponents

/-! ## Concrete inputs: the end-to-end scenario of the spec -/

/-- The single input row element of the end-to-end scenario. -/
def e2eEl : Element :=
  [("model", Value.str "firstName"), ("type", Value.str "FormText"),
   ("label", Value.str "First Name")]

/-- `mapProps: \x7b type: 'component', label: false \x7d` of the end-to-end
scenario, declaration order `type` then `label`. -/
def e2eProps : PropSpec :=
  PropSpec.obj
    [("type", Directive.val (DirResult.str "component")),
     ("label", Directive.val (DirResult.bool false))]

/-- `mapComponents: \x7b FormText: 'BaseInput' \x7d` of the end-to-end
scenario. -/
def e2eComps : List (String × String) := [("FormText", "BaseInput")]

/-! ## Association-list lemmas (JS object operations) -/

theorem getProp_deleteProp_ne (el : Element) (k q : String) (h : q ≠ k) :
    getProp (deleteProp el k) q = getProp el q := by
  induction el with
  | nil => rfl
  | cons p ps ih =>
    by_cases hp : p.1 = k
    · have hq : ¬ k = q := fun hc => h hc.symm
      simp [deleteProp, getProp, hp, hq]
    · simp only [deleteProp, if_neg hp, getProp]
      by_cases hq : p.1 = q
      · simp [hq]
      · simp [hq, ih]

theorem getProp_eq_none_of_not_mem (el : Element) (k : String)
    (h : k ∉ el.map Prod.fst) : getProp el k = none := by
  induction el with
  | nil => rfl
  | cons p ps ih =>
    simp only [List.map_cons, List.mem_cons, not_or] at h
    have h1 : ¬ p.1 = k := fun hc => h.1 hc.symm
    simp [getProp, h1, ih h.2]

theorem hasProp_deleteProp_self (el : Element) (k : String) (hwf : ElementWF el) :
    hasProp (deleteProp el k) k = false := by
  induction el with
  | nil => rfl
  | cons p ps ih =>
    simp only [ElementWF, List.map_cons, List.nodup_cons] at hwf
    by_cases hp : p.1 = k
    · simp only [deleteProp, if_pos hp, hasProp]
      rw [getProp_eq_none_of_not_mem ps k (hp ▸ hwf.1)]
      rfl
    · simp only [deleteProp, if_neg hp, hasProp, getProp, if_neg hp]
      exact ih hwf.2

theorem getProp_setProp_self (el : Element) (k : String) (v : Value) :
    getProp (setProp el k v) k = some v := by
  induction el with
  | nil => simp [setProp, getProp]
  | cons p ps ih =>
    by_cases hp : p.1 = k
    · simp [setProp, hp, getProp]
    · simp [setProp, hp, getProp, ih]

theorem getProp_setProp_ne (el : Element) (k q : String) (v : Value) (h : q ≠ k) :
    getProp (setProp el k v) q = getProp el q := by
  induction el with
  | nil =>
    have hq : ¬ k = q := fun hc => h hc.symm
    simp [setProp, getProp, hq]
  | cons p ps ih =>
    by_cases hp : p.1 = k
    · have hq : ¬ k = q := fun hc => h hc.symm
      simp [setProp, getProp, hp, hq]
    · simp only [setProp, if_neg hp, getProp]
      by_cases hq : p.1 = q
      · simp [hq]
      · simp [hq, ih]

theorem getProp_eq_some_getPropD (el : Element) (k : String) (h : hasProp el k = true) :
    getProp el k = some (getPropD el k) := by
  unfold hasProp at h
  unfold getPropD
  cases hg : getProp el k with
  | none => rw [hg] at h; simp at h
  | some v => simp [hg]

/-! ## Structural lemmas about the transforms -/

theorem mapElementsInSchema_shape (S : Schema) (f : Element → Element) :
    (mapElementsInSchema S f).map List.length = S.map List.length := by
  simp [mapElementsInSchema, List.map_map, Function.comp]

/-- The entry of a `for...in` loop whose assignment survives: the last one
declared. -/
def lastEntry (p : α) : List α → α
  | [] => p
  | q :: rest => lastEntry q rest

theorem mapProperties_obj_cons (S : Schema) (p : String × Directive)
    (table : List (String × Directive)) :
    mapProperties S (PropSpec.obj (p :: table))
      = some (mapElementsInSchema S fun el =>
          replacePropInElement el (lastEntry p table).1 (lastEntry p table).2) := by
  induction table generalizing p with
  | nil => rfl
  | cons q rest ih => exact ih q

/-! ## Claims -/

/-- C1: the spec says the end-to-end pipeline on the row
`[\x7bmodel: "firstName", type: "FormText", label: "First Name"\x7d]` with
`mapProps \x7btype: component, label: false\x7d` and
`mapComponents \x7bFormText: BaseInput\x7d` yields
`\x7bmodel: "firstName", component: "BaseInput"\x7d`.  The code instead keeps
only the last static rule (each `for...in` iteration walks the original
schema): the `type` rename is lost, so the component remap never fires, and
the output element is `\x7bmodel: "firstName", type: "FormText"\x7d`. -/
theorem c1_pipeline_loses_type_rename :
    lookupPluginTransform [[e2eEl]] e2eProps e2eComps
        = some [[[("model", Value.str "firstName"), ("type", Value.str "FormText")]]]
    ∧ lookupPluginTransform [[e2eEl]] e2eProps e2eComps
        ≠ some [[[("model", Value.str "firstName"), ("component", Value.str "BaseInput")]]] :=
  ⟨rfl, by decide⟩

/-- C2: the spec says the walk for static key number i+1 is applied to the
schema produced by the walk for key number i.  The code applies every walk
to the original input and keeps only the last: for any two-rule static
mapping the result is exactly the walk of the second rule over the original
schema, and on `[[\x7ba: 1, b: 2\x7d]]` with rules `a to x, b to y` the
output still holds `a` and lacks `x`. -/
theorem c2_static_rules_not_threaded :
    (∀ (S : Schema) (p q : String × Directive),
        mapProperties S (PropSpec.obj [p, q])
          = some (mapElementsInSchema S fun el => replacePropInElement el q.1 q.2))
    ∧ mapProperties [[[("a", Value.num 1), ("b", Value.num 2)]]]
        (PropSpec.obj [("a", Directive.val (DirResult.str "x")),
                       ("b", Directive.val (DirResult.str "y"))])
        = some [[[("a", Value.num 1), ("y", Value.num 2)]]] :=
  ⟨fun _ _ _ => rfl, by decide⟩

/-- C3: the spec says both `mapComps(S, empty)` and `mapProperties(S, empty)`
return S unchanged.  The first identity holds, but `mapProperties` with an
empty static mapping leaves its `schemaCopy` accumulator uninitialized and
returns `undefined` (`none`), not the input schema. -/
theorem c3_empty_mapping_identity_fails_for_mapProperties :
    (∀ S : Schema, mapComps S [] = S)
    ∧ ∀ S : Schema, mapProperties S (PropSpec.obj []) = none := by
  constructor
  · intro S
    have h : ∀ el : Element, mapCompEl [] el = el := fun _ => rfl
    simp [mapComps, mapElementsInSchema, h]
  · intro S
    rfl

/-- C4: row count and per-row element count are preserved by `mapComps`
always, by `mapProperties` with a user function, and by `mapProperties` with
a nonempty static mapping; but with an empty static mapping `mapProperties`
returns no schema at all (`undefined`), so the claimed invariant fails
there. -/
theorem c4_shape_preserved_except_empty_static :
    (∀ (S : Schema) (tbl : List (String × String)),
        (mapComps S tbl).map List.length = S.map List.length)
    ∧ (∀ (S : Schema) (f : Element → List (String × Directive)),
        (mapPropertiesWithUserFunction S f).map List.length = S.map List.length)
    ∧ (∀ (S : Schema) (p : String × Directive) (table : List (String × Directive)),
        ∃ T, mapProperties S (PropSpec.obj (p :: table)) = some T
          ∧ T.map List.length = S.map List.length)
    ∧ mapProperties [[e2eEl]] (PropSpec.obj []) = none := by
  refine ⟨fun S tbl => mapElementsInSchema_shape S _,
          fun S f => mapElementsInSchema_shape S _,
          fun S p table => ⟨_, mapProperties_obj_cons S p table, mapElementsInSchema_shape S _⟩,
          rfl⟩

/-- C5: a directive that is a function whose invocation on the element gives
a falsy value (literal false, undefined, the empty string, or zero) makes
the Property Rewriter return the element unchanged — a skip, never a
delete. -/
theorem c5_fn_falsy_result_skips (el : Element) (prop : String)
    (f : Element → DirResult) (h : dirFalsy (f el) = true) :
    replacePropInElement el prop (Directive.fn f) = el := by
  simp [replacePropInElement, h]

/-- Witness for C5: the function constantly returning the literal false is
falsy on a concrete element, and the rewrite leaves the element as is. -/
theorem c5_fn_falsy_result_skips_witness :
    dirFalsy ((fun _ : Element => DirResult.bool false) [("a", Value.num 1)]) = true
    ∧ replacePropInElement [("a", Value.num 1)] "a"
        (Directive.fn fun _ => DirResult.bool false) = [("a", Value.num 1)] :=
  ⟨rfl, c5_fn_falsy_result_skips _ _ _ rfl⟩

/-- C6: on an element that has the targeted property, the literal-false
directive returns the copy with that property deleted, adds no replacement
key, and leaves every other property unchanged. -/
theorem c6_literal_false_deletes (el : Element) (prop : String)
    (hwf : ElementWF el) (h : hasProp el prop = true) :
    replacePropInElement el prop (Directive.val (DirResult.bool false)) = deleteProp el prop
    ∧ hasProp (deleteProp el prop) prop = false
    ∧ ∀ k, k ≠ prop → getProp (deleteProp el prop) k = getProp el k := by
  refine ⟨?_, hasProp_deleteProp_self el prop hwf,
          fun k hk => getProp_deleteProp_ne el prop k hk⟩
  simp [replacePropInElement, replacePropCore, h]

/-- Witness for C6 on the concrete element
`\x7blabel: "First Name", model: "firstName"\x7d`. -/
theorem c6_literal_false_deletes_witness :
    ElementWF [("label", Value.str "First Name"), ("model", Value.str "firstName")]
    ∧ hasProp [("label", Value.str "First Name"), ("model", Value.str "firstName")] "label" = true
    ∧ replacePropInElement
        [("label", Value.str "First Name"), ("model", Value.str "firstName")] "label"
        (Directive.val (DirResult.bool false))
        = deleteProp [("label", Value.str "First Name"), ("model", Value.str "firstName")] "label" :=
  ⟨by decide, by decide,
   (c6_literal_false_deletes
      [("label", Value.str "First Name"), ("model", Value.str "firstName")] "label"
      (by decide) (by decide)).1⟩

/-- C7: when the targeted property is absent from the element, the Property
Rewriter returns the element unchanged, for every plain directive and for
every function directive (its `console.warn` diagnostic does not affect the
result, which the embedding omits); it never fails and never modifies the
element. -/
theorem c7_missing_prop_is_noop (el : Element) (prop : String)
    (h : hasProp el prop = false) :
    (∀ v : DirResult, replacePropInElement el prop (Directive.val v) = el)
    ∧ ∀ f : Element → DirResult, replacePropInElement el prop (Directive.fn f) = el := by
  constructor
  · intro v
    simp [replacePropInElement, replacePropCore, h]
  · intro f
    cases hf : dirFalsy (f el) <;>
      simp [replacePropInElement, replacePropCore, h, hf]

/-- Witness for C7: property `b` is absent from `\x7ba: 1\x7d` and a string
directive on it is a no-op. -/
theorem c7_missing_prop_is_noop_witness :
    hasProp [("a", Value.num 1)] "b" = false
    ∧ replacePropInElement [("a", Value.num 1)] "b" (Directive.val (DirResult.str "c"))
        = [("a", Value.num 1)] :=
  ⟨by decide, (c7_missing_prop_is_noop [("a", Value.num 1)] "b" (by decide)).1 _⟩

/-- C9: when the effective new name — a string directive, or a truthy string
returned by a function directive — is the name of another property already
present, that property is silently overwritten with the captured value of
the renamed property; the renamed key is gone and all other properties are
untouched. -/
theorem c9_rename_collision_overwrites (el : Element) (prop s : String) (d : Directive)
    (hwf : ElementWF el)
    (hd : d = Directive.val (DirResult.str s)
          ∨ ∃ f, d = Directive.fn f ∧ f el = DirResult.str s ∧ s ≠ "")
    (hp : hasProp el prop = true) (_hc : hasProp el s = true) (hne : s ≠ prop) :
    getProp (replacePropInElement el prop d) s = getProp el prop
    ∧ hasProp (replacePropInElement el prop d) prop = false
    ∧ ∀ k, k ≠ s → k ≠ prop → getProp (replacePropInElement el prop d) k = getProp el k := by
  have hred : replacePropInElement el prop d
      = setProp (deleteProp el prop) s (getPropD el prop) := by
    rcases hd with rfl | ⟨f, rfl, hf, hs⟩
    · simp [replacePropInElement, replacePropCore, hp, dirKey]
    · have hfalsy : dirFalsy (f el) = false := by
        rw [hf]; simp [dirFalsy, hs]
      simp only [replacePropInElement, hfalsy, Bool.false_eq_true, if_false]
      rw [hf]
      simp [replacePropCore, hp, dirKey]
  rw [hred]
  refine ⟨?_, ?_, ?_⟩
  · rw [getProp_setProp_self, getProp_eq_some_getPropD el prop hp]
  · show (getProp (setProp (deleteProp el prop) s (getPropD el prop)) prop).isSome = false
    rw [getProp_setProp_ne _ s prop _ (Ne.symm hne)]
    exact hasProp_deleteProp_self el prop hwf
  · intro k hks hkp
    rw [getProp_setProp_ne _ _ _ _ hks, getProp_deleteProp_ne _ _ _ hkp]

/-- Witness for C9: renaming `type` to `label` on
`\x7btype: "FormText", label: "L"\x7d` overwrites `label` with
`"FormText"`. -/
theorem c9_rename_collision_overwrites_witness :
    ElementWF [("type", Value.str "FormText"), ("label", Value.str "L")]
    ∧ getProp (replacePropInElement [("type", Value.str "FormText"), ("label", Value.str "L")]
          "type" (Directive.val (DirResult.str "label"))) "label"
        = getProp [("type", Value.str "FormText"), ("label", Value.str "L")] "type" :=
  ⟨by decide,
   (c9_rename_collision_overwrites [("type", Value.str "FormText"), ("label", Value.str "L")]
      "type" "label" (Directive.val (DirResult.str "label")) (by decide) (Or.inl rfl)
      (by decide) (by decide) (by decide)).1⟩

/-- C10: a component-table entry whose target is falsy — an absent entry
(`undefined`, also the case for elements with no `component` property) or an
empty-string target — leaves the element unchanged up to a structural
copy. -/
theorem c10_falsy_component_lookup_is_noop (tbl : List (String × String)) (el : Element)
    (h : lookupStr tbl (valueKey (getPropD el "component")) = none
         ∨ lookupStr tbl (valueKey (getPropD el "component")) = some "") :
    mapCompEl tbl el = el := by
  rcases h with h | h
  · unfold mapCompEl
    rw [h]
  · unfold mapCompEl
    rw [h]
    simp

/-- Witness for C10: an empty-string target for `FormText` leaves the
element with `component: "FormText"` untouched. -/
theorem c10_falsy_component_lookup_is_noop_witness :
    lookupStr [("FormText", "")]
        (valueKey (getPropD [("component", Value.str "FormText")] "component")) = some ""
    ∧ mapCompEl [("FormText", "")] [("component", Value.str "FormText")]
        = [("component", Value.str "FormText")] :=
  ⟨rfl, c10_falsy_component_lookup_is_noop _ _ (Or.inr rfl)⟩
